import Mathlib

set_option maxRecDepth 10000
set_option linter.unusedVariables false

/-
Verification development for the tempest test-suite sources:
  tempest/lib/api_schema/response/volume/v3_57/transfers.py
  tempest/api/compute/admin/test_live_migration.py
  tempest/api/identity/admin/v3/test_endpoints.py
  tempest/api/volume/test_volumes_backup.py

The schema-derivation module mutates shared Python dictionaries, so its
semantics is embedded with an explicit heap of dictionary objects:
`PVal` is a runtime value (a leaf or a reference into the heap), `Heap`
is the store of dictionary objects, and `JTree` is the pure tree a value
denotes once all references are followed.
-/

inductive JTree where
  | leafS : String → JTree
  | leafL : List String → JTree
  | leafB : Bool → JTree
  | dict : List (String × JTree) → JTree

inductive PVal where
  | str : String → PVal
  | strs : List String → PVal
  | bool : Bool → PVal
  | ref : Nat → PVal
deriving DecidableEq

/-- A heap of Python dictionary objects; the address of an object is its
index in the list, and each object is an insertion-ordered association
list, matching Python's ordered dicts. -/
abbrev Heap : Type := List (List (String × PVal))

/-- Association-list lookup, `d[key]` read access on a dict object. -/
def lookupField : List (String × PVal) → String → Option PVal
  | [], _ => none
  | (k, v) :: fs, key => if k = key then some v else lookupField fs key

/-- `d[key] = v` on an insertion-ordered dict: replace in place when the
key exists, append otherwise — Python dict assignment semantics. -/
def setKey {α : Type} : List (String × α) → String → α → List (String × α)
  | [], key, v => [(key, v)]
  | (k, w) :: fs, key, v =>
      if k = key then (k, v) :: fs else (k, w) :: setKey fs key v

/-- `d.update(kvs)` on an insertion-ordered dict. -/
def dictUpdate {α : Type} (fs : List (String × α)) (kvs : List (String × α)) :
    List (String × α) :=
  kvs.foldl (fun acc kv => setKey acc kv.1 kv.2) fs

/-- One traversal layer over a dictionary object's field list, used by
the fuel-indexed heap traversals below. -/
def loadFieldsWith (f : PVal → Option JTree) :
    List (String × PVal) → Option (List (String × JTree))
  | [] => some []
  | (k, v) :: fs =>
      match f v with
      | none => none
      | some t =>
          match loadFieldsWith f fs with
          | none => none
          | some ts => some ((k, t) :: ts)

/-- Denotation of a runtime value as a pure tree, following references
through the heap; the fuel bounds reference-chain depth (any fuel at
least the heap size is enough for an acyclic heap). Defined through the
`Nat` recursor so that concrete runs compute by definitional unfolding. -/
def loadVal (h : Heap) (fuel : Nat) : PVal → Option JTree :=
  Nat.rec
    (motive := fun _ => PVal → Option JTree)
    (fun v =>
      match v with
      | .str s => some (.leafS s)
      | .strs l => some (.leafL l)
      | .bool b => some (.leafB b)
      | .ref _ => none)
    (fun _ ih v =>
      match v with
      | .str s => some (.leafS s)
      | .strs l => some (.leafL l)
      | .bool b => some (.leafB b)
      | .ref a =>
          match h[a]? with
          | none => none
          | some fs =>
              match loadFieldsWith ih fs with
              | none => none
              | some ts => some (.dict ts))
    fuel

/-- `loadVal` on a leaf. -/
theorem loadVal_str (h : Heap) (fuel : Nat) (s : String) :
    loadVal h fuel (.str s) = some (.leafS s) := by cases fuel <;> rfl

/-- `loadVal` on a string-list leaf. -/
theorem loadVal_strs (h : Heap) (fuel : Nat) (l : List String) :
    loadVal h fuel (.strs l) = some (.leafL l) := by cases fuel <;> rfl

/-- `loadVal` on a boolean leaf. -/
theorem loadVal_bool (h : Heap) (fuel : Nat) (b : Bool) :
    loadVal h fuel (.bool b) = some (.leafB b) := by cases fuel <;> rfl

/-- `loadVal` on a reference with no fuel left. -/
theorem loadVal_ref_zero (h : Heap) (a : Nat) :
    loadVal h 0 (.ref a) = none := rfl

/-- `loadVal` unfolding on a reference. -/
theorem loadVal_ref_succ (h : Heap) (fuel : Nat) (a : Nat) :
    loadVal h (fuel + 1) (.ref a) =
      match h[a]? with
      | none => none
      | some fs =>
          match loadFieldsWith (loadVal h fuel) fs with
          | none => none
          | some ts => some (.dict ts) := rfl

/-- One allocation layer over a field list of pure trees. -/
def storeFieldsWith (f : JTree → Heap → Heap × PVal) :
    List (String × JTree) → Heap → Heap × List (String × PVal)
  | [], h => (h, [])
  | (k, v) :: fs, h =>
      let p := f v h
      let q := storeFieldsWith f fs p.1
      (q.1, (k, p.2) :: q.2)

/-- Storing a pure tree into the heap with a depth budget: allocates one
fresh dictionary object per `dict` node (children first), the semantics
of building a Python dict literal. -/
def storeTreeF (fuel : Nat) : JTree → Heap → Heap × PVal :=
  Nat.rec
    (motive := fun _ => JTree → Heap → Heap × PVal)
    (fun _ h => (h, .str ""))
    (fun _ ih t h =>
      match t with
      | .leafS s => (h, .str s)
      | .leafL l => (h, .strs l)
      | .leafB b => (h, .bool b)
      | .dict fs =>
          let q := storeFieldsWith ih fs h
          (q.1 ++ [q.2], .ref q.1.length))
    fuel

/-- Storing a pure tree; the fixed depth budget exceeds the nesting
depth of every schema tree in this development. -/
def storeTree (h : Heap) (t : JTree) : Heap × PVal := storeTreeF 1000 t h

/-- One reachability layer over a field list. -/
def reachFieldsWith (f : PVal → List Nat) :
    List (String × PVal) → List Nat
  | [] => []
  | (_, v) :: fs => f v ++ reachFieldsWith f fs

/-- Heap addresses reachable from a value, mirroring the recursion
structure of `loadVal`. -/
def reachVal (h : Heap) (fuel : Nat) : PVal → List Nat :=
  Nat.rec
    (motive := fun _ => PVal → List Nat)
    (fun _ => [])
    (fun _ ih v =>
      match v with
      | .str _ => []
      | .strs _ => []
      | .bool _ => []
      | .ref a =>
          match h[a]? with
          | none => [a]
          | some fs => a :: reachFieldsWith ih fs)
    fuel

/-- `reachVal` with no fuel left. -/
theorem reachVal_zero (h : Heap) (v : PVal) : reachVal h 0 v = [] := rfl

/-- `reachVal` on a leaf. -/
theorem reachVal_leaf (h : Heap) (fuel : Nat) :
    (∀ s, reachVal h fuel (.str s) = []) ∧
    (∀ l, reachVal h fuel (.strs l) = []) ∧
    (∀ b, reachVal h fuel (.bool b) = []) := by
  refine ⟨fun s => ?_, fun l => ?_, fun b => ?_⟩ <;> cases fuel <;> rfl

/-- `reachVal` unfolding on a reference. -/
theorem reachVal_ref_succ (h : Heap) (fuel : Nat) (a : Nat) :
    reachVal h (fuel + 1) (.ref a) =
      match h[a]? with
      | none => [a]
      | some fs => a :: reachFieldsWith (reachVal h fuel) fs := rfl

/-- Path lookup `root[k1][k2]...` through the heap. -/
def resolvePath (h : Heap) : PVal → List String → Option PVal
  | v, [] => some v
  | .ref a, key :: rest =>
      match h[a]? with
      | none => none
      | some fs =>
          match lookupField fs key with
          | none => none
          | some v => resolvePath h v rest
  | _, _ :: _ => none

/-- In-place `update`/assignment on the object at address `a`. -/
def heapUpdateAt (h : Heap) (a : Nat) (kvs : List (String × PVal)) : Heap :=
  match h[a]? with
  | some fs => h.set a (dictUpdate fs kvs)
  | none => h

/-- `root[k1][k2]...[kn].update(kvs)`: resolve the path to an object and
mutate it in place. -/
def updatePath (h : Heap) (root : PVal) (path : List String)
    (kvs : List (String × PVal)) : Heap :=
  match resolvePath h root path with
  | some (.ref a) => heapUpdateAt h a kvs
  | _ => h

/-- `copy.deepcopy`: read the value's denotation and rebuild it with
entirely fresh objects. -/
def deepcopy (h : Heap) (v : PVal) : Heap × PVal :=
  match loadVal h (h.length + 1) v with
  | some t => storeTree h t
  | none => (h, v)

/-- At zero fuel no address is reachable from a field list. -/
theorem reachFieldsWith_zero (h : Heap) (l : List (String × PVal)) :
    reachFieldsWith (reachVal h 0) l = [] := by
  induction l with
  | nil => rfl
  | cons kv rest ih =>
      obtain ⟨k, v⟩ := kv
      simp [reachFieldsWith, reachVal_zero, ih]

/-- Mutating the object at an address that is not reachable from a value
leaves that value's denotation unchanged: the frame property of the heap
model, used to express deep-copy non-aliasing. -/
theorem load_frame (h : Heap) (a : Nat) (o : List (String × PVal)) :
    ∀ fuel : Nat,
      (∀ v : PVal, a ∉ reachVal h fuel v →
        loadVal (h.set a o) fuel v = loadVal h fuel v) ∧
      (∀ l : List (String × PVal),
        a ∉ reachFieldsWith (reachVal h fuel) l →
        loadFieldsWith (loadVal (h.set a o) fuel) l =
          loadFieldsWith (loadVal h fuel) l) := by
  intro fuel
  induction fuel with
  | zero =>
      have hv : ∀ v : PVal, loadVal (h.set a o) 0 v = loadVal h 0 v := by
        intro v; cases v <;> rfl
      refine ⟨fun v _ => hv v, ?_⟩
      intro l _
      induction l with
      | nil => rfl
      | cons kv rest ih =>
          obtain ⟨k, v⟩ := kv
          have hrest := ih (by simp [reachFieldsWith_zero])
          simp [loadFieldsWith, hv v, hrest]
  | succ n ih =>
      have hv : ∀ v : PVal, a ∉ reachVal h (n + 1) v →
          loadVal (h.set a o) (n + 1) v = loadVal h (n + 1) v := by
        intro v hnv
        match v with
        | .str s => rfl
        | .strs l => rfl
        | .bool b => rfl
        | .ref b =>
            have hba : a ≠ b := by
              intro e
              subst e
              rw [reachVal_ref_succ] at hnv
              cases hg : h[a]? with
              | none => rw [hg] at hnv; exact hnv (by simp)
              | some fs => rw [hg] at hnv; exact hnv (by simp)
            have hget : (h.set a o)[b]? = h[b]? := List.getElem?_set_ne hba
            rw [loadVal_ref_succ, loadVal_ref_succ, hget]
            cases hg : h[b]? with
            | none => rfl
            | some fs =>
                have hfs : a ∉ reachFieldsWith (reachVal h n) fs := by
                  intro hmem
                  rw [reachVal_ref_succ, hg] at hnv
                  exact hnv (by simp [hmem])
                simp only [ih.2 fs hfs]
      refine ⟨hv, ?_⟩
      intro l hl
      induction l with
      | nil => rfl
      | cons kv rest ihl =>
          obtain ⟨k, v⟩ := kv
          have h1 : a ∉ reachVal h (n + 1) v := by
            intro hmem; exact hl (by simp [reachFieldsWith, hmem])
          have h2 : a ∉ reachFieldsWith (reachVal h (n + 1)) rest := by
            intro hmem; exact hl (by simp [reachFieldsWith, hmem])
          simp [loadFieldsWith, hv v h1, ihl h2]

/-
Schema modules. `parameter_types.uuid_or_null` and the v3_55 base
schemas live in modules that are referenced by
tempest/lib/api_schema/response/volume/v3_57/transfers.py; the v3_57
module itself is embedded below step by step from its source.
-/

/-- Modelled from the spec: the `uuid_or_null` parameter type of
tempest/lib/api_schema/response/compute/v2_1/parameter_types.py, a
module referenced by the v3_57 source but not among the sources; the
declared edit describes the added field destination_project_id as
"uuid or null". -/
def uuidOrNullTree : JTree :=
  .dict [("type", .leafL ["string", "null"]), ("format", .leafS "uuid")]

/-- Modelled from the spec: the transfer object of the 3.55 base
schemas. The module
tempest/lib/api_schema/response/volume/v3_55/transfers.py is not among
the sources; the spec describes a schema fragment only as an immutable
nested mapping of field names to types and formats, so a representative
field set is used. -/
def baseCommonTree : JTree :=
  .dict
    [("type", .leafS "object"),
     ("properties", .dict
       [("id", .dict [("type", .leafS "string"), ("format", .leafS "uuid")]),
        ("volume_id", .dict
          [("type", .leafS "string"), ("format", .leafS "uuid")]),
        ("name", .dict [("type", .leafL ["string", "null"])]),
        ("created_at", .dict [("type", .leafS "string")])]),
     ("additionalProperties", .leafB false)]

/-- Modelled from the spec: the 3.55 base create-transfer schema, a
response-body wrapper around a transfer object (with the extra
`auth_key` field the create response carries). -/
def baseCreateTree : JTree :=
  .dict
    [("status_code", .leafL ["202"]),
     ("response_body", .dict
       [("type", .leafS "object"),
        ("properties", .dict
          [("transfer", .dict
            [("type", .leafS "object"),
             ("properties", .dict
               [("id", .dict
                  [("type", .leafS "string"), ("format", .leafS "uuid")]),
                ("volume_id", .dict
                  [("type", .leafS "string"), ("format", .leafS "uuid")]),
                ("auth_key", .dict [("type", .leafS "string")]),
                ("name", .dict [("type", .leafL ["string", "null"])])]),
             ("additionalProperties", .leafB false)])]),
        ("required", .leafL ["transfer"])])]

/-- Modelled from the spec: the 3.55 base show-transfer schema; its
transfer object is the 3.55 common transfer object. -/
def baseShowTree : JTree :=
  .dict
    [("status_code", .leafL ["200"]),
     ("response_body", .dict
       [("type", .leafS "object"),
        ("properties", .dict [("transfer", baseCommonTree)]),
        ("required", .leafL ["transfer"])])]

/-- Modelled from the spec: the 3.55 base list schema without detail,
whose items carry only summary fields. -/
def baseListNoDetailTree : JTree :=
  .dict
    [("status_code", .leafL ["200"]),
     ("response_body", .dict
       [("type", .leafS "object"),
        ("properties", .dict
          [("transfers", .dict
            [("type", .leafS "array"),
             ("items", .dict
               [("type", .leafS "object"),
                ("properties", .dict
                  [("id", .dict
                     [("type", .leafS "string"), ("format", .leafS "uuid")]),
                   ("name", .dict
                     [("type", .leafL ["string", "null"])])])])])]),
        ("required", .leafL ["transfers"])])]

/-- Modelled from the spec: the 3.55 base detailed list schema, whose
per-item schema is the 3.55 common transfer object. -/
def baseListWithDetailTree : JTree :=
  .dict
    [("status_code", .leafL ["200"]),
     ("response_body", .dict
       [("type", .leafS "object"),
        ("properties", .dict
          [("transfers", .dict
            [("type", .leafS "array"), ("items", baseCommonTree)])]),
        ("required", .leafL ["transfers"])])]

/-- Modelled from the spec: the 3.55 base delete-transfer schema. -/
def baseDeleteTree : JTree := .dict [("status_code", .leafL ["202"])]

/-- Modelled from the spec: the 3.55 base accept-transfer schema. -/
def baseAcceptTree : JTree :=
  .dict
    [("status_code", .leafL ["202"]),
     ("response_body", .dict
       [("type", .leafS "object"),
        ("properties", .dict
          [("transfer", .dict
            [("type", .leafS "object"),
             ("properties", .dict
               [("id", .dict
                  [("type", .leafS "string"), ("format", .leafS "uuid")]),
                ("volume_id", .dict
                  [("type", .leafS "string"), ("format", .leafS "uuid")]),
                ("name", .dict [("type", .leafL ["string", "null"])])]),
             ("additionalProperties", .leafB false)])]),
        ("required", .leafL ["transfer"])])]

/- Loading the referenced modules builds their objects in the heap:
first parameter_types, then the v3_55 module's six schema values. -/

def hpParam : Heap × PVal := storeTree [] uuidOrNullTree
def uuid_or_null : PVal := hpParam.2

def hp55a : Heap × PVal := storeTree hpParam.1 baseCreateTree
def base55_create_volume_transfer : PVal := hp55a.2
def hp55b : Heap × PVal := storeTree hp55a.1 baseCommonTree
def base55_common_show_volume_transfer : PVal := hp55b.2
def hp55c : Heap × PVal := storeTree hp55b.1 baseShowTree
def base55_show_volume_transfer : PVal := hp55c.2
def hp55d : Heap × PVal := storeTree hp55c.1 baseListNoDetailTree
def base55_list_volume_transfers_no_detail : PVal := hp55d.2
def hp55e : Heap × PVal := storeTree hp55d.1 baseListWithDetailTree
def base55_list_volume_transfers_with_detail : PVal := hp55e.2
def hp55f : Heap × PVal := storeTree hp55e.1 baseDeleteTree
def base55_delete_volume_transfer : PVal := hp55f.2
def hp55g : Heap × PVal := storeTree hp55f.1 baseAcceptTree
def base55_accept_volume_transfer : PVal := hp55g.2

/- The v3_57 module body, statement by statement
(tempest/lib/api_schema/response/volume/v3_57/transfers.py lines
27-61). Each `update` argument is a fresh literal dict except for the
direct reference to `parameter_types.uuid_or_null`. -/

def transferPropsPath : List String :=
  ["response_body", "properties", "transfer", "properties"]

def hp57a : Heap × PVal := deepcopy hp55g.1 base55_create_volume_transfer
def create_volume_transfer : PVal := hp57a.2
def h57b : Heap :=
  updatePath hp57a.1 create_volume_transfer transferPropsPath
    [("destination_project_id", uuid_or_null)]
def hp57c : Heap × PVal :=
  storeTree h57b (.dict [("type", .leafS "string"), ("format", .leafS "uuid")])
def h57d : Heap :=
  updatePath hp57c.1 create_volume_transfer transferPropsPath
    [("source_project_id", hp57c.2)]
def hp57e : Heap × PVal := storeTree h57d (.dict [("type", .leafS "boolean")])
def h57f : Heap :=
  updatePath hp57e.1 create_volume_transfer transferPropsPath
    [("accepted", hp57e.2)]

def hp57g : Heap × PVal := deepcopy h57f base55_common_show_volume_transfer
def common_show_volume_transfer : PVal := hp57g.2
def h57h : Heap :=
  updatePath hp57g.1 common_show_volume_transfer ["properties"]
    [("destination_project_id", uuid_or_null)]
def hp57i : Heap × PVal :=
  storeTree h57h (.dict [("type", .leafS "string"), ("format", .leafS "uuid")])
def h57j : Heap :=
  updatePath hp57i.1 common_show_volume_transfer ["properties"]
    [("source_project_id", hp57i.2)]
def hp57k : Heap × PVal := storeTree h57j (.dict [("type", .leafS "boolean")])
def h57l : Heap :=
  updatePath hp57k.1 common_show_volume_transfer ["properties"]
    [("accepted", hp57k.2)]

def hp57m : Heap × PVal := deepcopy h57l base55_show_volume_transfer
def show_volume_transfer : PVal := hp57m.2
def h57n : Heap :=
  updatePath hp57m.1 show_volume_transfer ["response_body", "properties"]
    [("transfer", common_show_volume_transfer)]

def hp57o : Heap × PVal := deepcopy h57n base55_list_volume_transfers_no_detail
def list_volume_transfers_no_detail : PVal := hp57o.2

def hp57p : Heap × PVal :=
  deepcopy hp57o.1 base55_list_volume_transfers_with_detail
def list_volume_transfers_with_detail : PVal := hp57p.2
def h57q : Heap :=
  updatePath hp57p.1 list_volume_transfers_with_detail
    ["response_body", "properties", "transfers"]
    [("items", common_show_volume_transfer)]

def hp57r : Heap × PVal := deepcopy h57q base55_delete_volume_transfer
def delete_volume_transfer : PVal := hp57r.2

def hp57s : Heap × PVal := deepcopy hp57r.1 base55_accept_volume_transfer
def accept_volume_transfer : PVal := hp57s.2

/-- The heap after the v3_57 module has finished loading. -/
def finalHeap : Heap := hp57s.1

/-- Fuel sufficient to follow every reference chain in the final heap. -/
def bigFuel : Nat := finalHeap.length + 1

/-- The three field additions declared by microversion 3.57 for the
transfer object: destination_project_id (uuid or null),
source_project_id (uuid-format string) and accepted (boolean). -/
def addedFields : List (String × JTree) :=
  [("destination_project_id", uuidOrNullTree),
   ("source_project_id",
     .dict [("type", .leafS "string"), ("format", .leafS "uuid")]),
   ("accepted", .dict [("type", .leafS "boolean")])]

/-- Applying a declared edit list to a pure schema tree at a key path:
the dict at the path receives the new keys (appended, in order), and
every other node is left byte-for-byte identical. -/
def editAtPath : List String → List (String × JTree) → JTree → JTree
  | [], kvs, .dict fs => .dict (dictUpdate fs kvs)
  | [], _, t => t
  | key :: rest, kvs, .dict fs =>
      .dict (fs.map fun kv =>
        if kv.1 = key then (kv.1, editAtPath rest kvs kv.2) else kv)
  | _ :: _, _, t => t

def derivedSchemaRoots : List PVal :=
  [create_volume_transfer, common_show_volume_transfer,
   show_volume_transfer, list_volume_transfers_no_detail,
   list_volume_transfers_with_detail, delete_volume_transfer,
   accept_volume_transfer]

def baseSchemaRoots : List PVal :=
  [base55_create_volume_transfer, base55_common_show_volume_transfer,
   base55_show_volume_transfer, base55_list_volume_transfers_no_detail,
   base55_list_volume_transfers_with_detail, base55_delete_volume_transfer,
   base55_accept_volume_transfer]

/-- Every heap address reachable from some derived (3.57) schema. -/
def derivedReachAddrs : List Nat :=
  (derivedSchemaRoots.map (reachVal finalHeap bigFuel)).flatten

/-- Claim C2: each 3.57 volume-transfer schema equals the corresponding
3.55 base schema up to exactly the declared edits: the three fields are
added to the transfer properties of create and show, and to the
per-item properties of the detailed list; the delete, accept and
no-detail list schemas are structurally identical to the base. -/
theorem v3_57_schema_edits_match_declared :
    loadVal finalHeap bigFuel create_volume_transfer =
      some (editAtPath transferPropsPath addedFields baseCreateTree) ∧
    loadVal finalHeap bigFuel show_volume_transfer =
      some (editAtPath transferPropsPath addedFields baseShowTree) ∧
    loadVal finalHeap bigFuel list_volume_transfers_with_detail =
      some (editAtPath
        ["response_body", "properties", "transfers", "items", "properties"]
        addedFields baseListWithDetailTree) ∧
    loadVal finalHeap bigFuel list_volume_transfers_no_detail =
      some baseListNoDetailTree ∧
    loadVal finalHeap bigFuel delete_volume_transfer =
      some baseDeleteTree ∧
    loadVal finalHeap bigFuel accept_volume_transfer =
      some baseAcceptTree ∧
    loadVal finalHeap bigFuel common_show_volume_transfer =
      some (editAtPath ["properties"] addedFields baseCommonTree) :=
  ⟨rfl, rfl, rfl, rfl, rfl, rfl, rfl⟩

/-- Claim C3: deriving the 3.57 schemas deep-copies the 3.55 bases —
overwriting any dictionary reachable from a derived schema leaves the
denotation of every base schema unchanged (no nested structure of a
derived schema aliases a nested structure of the base version). -/
theorem v3_57_deepcopy_no_base_aliasing (a : Nat)
    (ha : a ∈ derivedReachAddrs) (o : List (String × PVal)) (b : PVal)
    (hb : b ∈ baseSchemaRoots) :
    loadVal (finalHeap.set a o) bigFuel b = loadVal finalHeap bigFuel b := by
  apply (load_frame finalHeap a o bigFuel).1 b
  have hb7 : b = base55_create_volume_transfer ∨
      b = base55_common_show_volume_transfer ∨
      b = base55_show_volume_transfer ∨
      b = base55_list_volume_transfers_no_detail ∨
      b = base55_list_volume_transfers_with_detail ∨
      b = base55_delete_volume_transfer ∨
      b = base55_accept_volume_transfer := by
    simpa [baseSchemaRoots] using hb
  rcases hb7 with rfl | rfl | rfl | rfl | rfl | rfl | rfl
  · exact (by decide :
      ∀ x ∈ derivedReachAddrs,
        x ∉ reachVal finalHeap bigFuel base55_create_volume_transfer) a ha
  · exact (by decide :
      ∀ x ∈ derivedReachAddrs,
        x ∉ reachVal finalHeap bigFuel base55_common_show_volume_transfer)
      a ha
  · exact (by decide :
      ∀ x ∈ derivedReachAddrs,
        x ∉ reachVal finalHeap bigFuel base55_show_volume_transfer) a ha
  · exact (by decide :
      ∀ x ∈ derivedReachAddrs,
        x ∉ reachVal finalHeap bigFuel
          base55_list_volume_transfers_no_detail) a ha
  · exact (by decide :
      ∀ x ∈ derivedReachAddrs,
        x ∉ reachVal finalHeap bigFuel
          base55_list_volume_transfers_with_detail) a ha
  · exact (by decide :
      ∀ x ∈ derivedReachAddrs,
        x ∉ reachVal finalHeap bigFuel base55_delete_volume_transfer) a ha
  · exact (by decide :
      ∀ x ∈ derivedReachAddrs,
        x ∉ reachVal finalHeap bigFuel base55_accept_volume_transfer) a ha

/-- Witness for C3 at a concrete input: the root dictionary of the
derived create schema is a reachable derived address, and overwriting
it does not change the base create schema's denotation. -/
theorem v3_57_deepcopy_no_base_aliasing_witness :
    (60 ∈ derivedReachAddrs) ∧
    (base55_create_volume_transfer ∈ baseSchemaRoots) ∧
    loadVal (finalHeap.set 60 []) bigFuel base55_create_volume_transfer =
      loadVal finalHeap bigFuel base55_create_volume_transfer :=
  ⟨by decide, by simp [baseSchemaRoots],
   v3_57_deepcopy_no_base_aliasing 60 (by decide) []
     base55_create_volume_transfer (by simp [baseSchemaRoots])⟩

/-- Path lookups distribute over path concatenation. -/
theorem resolvePath_append (h : Heap) (p : List String) :
    ∀ (v : PVal) (q : List String),
      resolvePath h v (p ++ q) =
        match resolvePath h v p with
        | none => none
        | some w => resolvePath h w q := by
  induction p with
  | nil => intro v q; simp [resolvePath]
  | cons key rest ih =>
      intro v q
      match v with
      | .str s => simp [resolvePath]
      | .strs l => simp [resolvePath]
      | .bool b => simp [resolvePath]
      | .ref a =>
          simp only [List.cons_append, resolvePath]
          cases hg : h[a]? with
          | none => simp [hg]
          | some fs =>
              simp only [hg]
              cases hl : lookupField fs key with
              | none => simp [hl]
              | some w => simp [hl, ih w q]

/-- The addresses a path lookup dereferences on its way to the result
(the result itself, if a reference, is not dereferenced). -/
def pathAddrs (h : Heap) : PVal → List String → List Nat
  | _, [] => []
  | .ref a, key :: rest =>
      a ::
        (match h[a]? with
         | none => []
         | some fs =>
             match lookupField fs key with
             | none => []
             | some v => pathAddrs h v rest)
  | _, _ :: _ => []

/-- Overwriting an object that a path lookup never dereferences does not
change the lookup's result. -/
theorem resolvePath_set_ne (h : Heap) (a : Nat) (o : List (String × PVal)) :
    ∀ (p : List String) (v : PVal), a ∉ pathAddrs h v p →
      resolvePath (h.set a o) v p = resolvePath h v p := by
  intro p
  induction p with
  | nil => intro v _; simp [resolvePath]
  | cons key rest ih =>
      intro v hv
      match v with
      | .str s => simp [resolvePath]
      | .strs l => simp [resolvePath]
      | .bool b => simp [resolvePath]
      | .ref b =>
          have hba : a ≠ b := by
            intro e; subst e
            exact hv (by simp [pathAddrs])
          have hget : (h.set a o)[b]? = h[b]? := List.getElem?_set_ne hba
          simp only [resolvePath, hget]
          cases hg : h[b]? with
          | none => simp
          | some fs =>
              simp only []
              cases hl : lookupField fs key with
              | none => simp [hl]
              | some w =>
                  simp only [hl]
                  apply ih
                  intro hmem
                  exact hv (by simp [pathAddrs, hg, hl, hmem])

/-- The heap address of the 3.57 `common_show_volume_transfer` object. -/
def commonShowAddr : Nat := 68

/-- Claim C9: the transfer object of the 3.57 show schema and the
per-item schema of the 3.57 detailed list are the very same value,
`common_show_volume_transfer`: both paths resolve to the same
reference, every deeper lookup through one agrees with the other
(identical property sets, including the three 3.57 fields), and any
later in-place edit of the shared object is visible through both. -/
theorem show_and_list_detail_share_common_schema :
    common_show_volume_transfer = .ref commonShowAddr ∧
    resolvePath finalHeap show_volume_transfer
      ["response_body", "properties", "transfer"] =
      some common_show_volume_transfer ∧
    resolvePath finalHeap list_volume_transfers_with_detail
      ["response_body", "properties", "transfers", "items"] =
      some common_show_volume_transfer ∧
    (∀ ks : List String,
      resolvePath finalHeap show_volume_transfer
        (["response_body", "properties", "transfer"] ++ ks) =
      resolvePath finalHeap list_volume_transfers_with_detail
        (["response_body", "properties", "transfers", "items"] ++ ks)) ∧
    resolvePath finalHeap common_show_volume_transfer
      ["properties", "destination_project_id"] = some uuid_or_null ∧
    (resolvePath finalHeap common_show_volume_transfer
      ["properties", "source_project_id"]).isSome = true ∧
    (resolvePath finalHeap common_show_volume_transfer
      ["properties", "accepted"]).isSome = true ∧
    (∀ o : List (String × PVal),
      resolvePath (finalHeap.set commonShowAddr o)
        show_volume_transfer ["response_body", "properties", "transfer"] =
      resolvePath (finalHeap.set commonShowAddr o)
        list_volume_transfers_with_detail
        ["response_body", "properties", "transfers", "items"]) := by
  have h1 : resolvePath finalHeap show_volume_transfer
      ["response_body", "properties", "transfer"] =
      some common_show_volume_transfer := rfl
  have h2 : resolvePath finalHeap list_volume_transfers_with_detail
      ["response_body", "properties", "transfers", "items"] =
      some common_show_volume_transfer := rfl
  refine ⟨rfl, h1, h2, ?_, rfl, rfl, rfl, ?_⟩
  · intro ks
    rw [resolvePath_append, resolvePath_append, h1, h2]
  · intro o
    rw [resolvePath_set_ne finalHeap commonShowAddr o _ _ (by decide),
      resolvePath_set_ne finalHeap commonShowAddr o _ _ (by decide), h1, h2]

/-
Live-migration verification flow
(tempest/api/compute/admin/test_live_migration.py). The remote cloud is
an oracle: `hostAt k` is the response to the k-th get_host_for_server
call, `waitOkAt k` whether the k-th wait_for_server_status call returns
before its deadline, and `migrationsAt k` the k-th list_migrations
response. Each run also yields the trace of remote calls it issued.
-/

/-- A migration record as observed via list_migrations: the instance
identifier it is correlated to, and its rendering under the string
formatting the failure message applies to the whole record. -/
structure Migration where
  instance_uuid : String
  text : String
deriving DecidableEq

/-- The remote-cloud oracle. -/
structure Cloud where
  hostAt : Nat → String
  waitOkAt : Nat → Bool
  migrationsAt : Nat → List Migration

/-- Remote calls issued by the flow, in order. -/
inductive CloudEv where
  | getHost (serverId host : String)
  | migrate (serverId : String) (dest : Option String)
  | wait (serverId state : String)
  | listMigrations
  | pause (serverId : String)
deriving DecidableEq

/-- Outcome of one flow run: the test passed, the status wait raised a
timeout error, or an assertion raised with its message. -/
inductive RunResult where
  | passed
  | timeoutError (msg : String)
  | assertError (msg : String)
deriving DecidableEq

/-- Modelled from the spec: the timeout error raised by the waiter
(tempest/common/waiters.py is not among the sources); per the spec the
waiter fails with a timeout error naming the polled resource and the
expected status — it has no access to migration records. -/
def waitTimeoutMsg (serverId state : String) : String :=
  "Server " ++ serverId ++ " failed to reach " ++ state ++
    " status within the required time."

/-- The entries the failure-message loop appends: one rendering per
migration record whose instance_uuid equals the migrated server's id,
in list order (test_live_migration.py lines 86-88). -/
def migrationEntries (serverId : String) : List Migration → String
  | [] => ""
  | m :: ms =>
      (if m.instance_uuid = serverId then "\n" ++ m.text else "") ++
        migrationEntries serverId ms

/-- The assertion message of `_live_migrate`
(test_live_migration.py lines 84-89). -/
def migrationsMsg (serverId : String) (ms : List Migration) : String :=
  "Live Migration failed. Migrations list for Instance " ++ serverId ++
    ": [" ++ migrationEntries serverId ms ++ "]"

/-- `_live_migrate(server_id, target_host, state)`
(test_live_migration.py lines 73-95): when no target host is given the
source host is read first; then the migrate request is issued, the flow
waits for the expected status (a timeout propagates the waiter's
error), lists migrations to build the failure message, and asserts on
the final host placement. `kh`, `kw`, `kl` count the oracle calls made
so far; the run returns its result, the updated counters and its event
trace. -/
def liveMigrate (c : Cloud) (sid : String) (target : Option String)
    (state : String) (kh kw kl : Nat) :
    RunResult × (Nat × Nat × Nat) × List CloudEv :=
  match target with
  | none =>
      let source_host := c.hostAt kh
      let evs0 := [CloudEv.getHost sid source_host,
        CloudEv.migrate sid none, CloudEv.wait sid state]
      if c.waitOkAt kw then
        let msg := migrationsMsg sid (c.migrationsAt kl)
        let post := c.hostAt (kh + 1)
        let evs := evs0 ++ [CloudEv.listMigrations, CloudEv.getHost sid post]
        if source_host ≠ post then (.passed, (kh + 2, kw + 1, kl + 1), evs)
        else (.assertError msg, (kh + 2, kw + 1, kl + 1), evs)
      else
        (.timeoutError (waitTimeoutMsg sid state), (kh + 1, kw + 1, kl), evs0)
  | some t =>
      let evs0 := [CloudEv.migrate sid (some t), CloudEv.wait sid state]
      if c.waitOkAt kw then
        let msg := migrationsMsg sid (c.migrationsAt kl)
        let post := c.hostAt kh
        let evs := evs0 ++ [CloudEv.listMigrations, CloudEv.getHost sid post]
        if t = post then (.passed, (kh + 1, kw + 1, kl + 1), evs)
        else (.assertError msg, (kh + 1, kw + 1, kl + 1), evs)
      else
        (.timeoutError (waitTimeoutMsg sid state), (kh, kw + 1, kl), evs0)

/-- Claim C1: on success with an explicit target the reported host (the
final get_host_for_server response) equals the target; with no target
the source host is read before the migrate request is issued — it is
the first event of the trace, ahead of the migrate event — and on
success the reported host differs from that recorded source host. -/
theorem live_migrate_host_postcondition (c : Cloud) (sid state : String)
    (kh kw kl : Nat) :
    (∀ t : String,
      (liveMigrate c sid (some t) state kh kw kl).1 = .passed →
        c.hostAt kh = t) ∧
    ((liveMigrate c sid none state kh kw kl).1 = .passed →
      (liveMigrate c sid none state kh kw kl).2.2 =
        [CloudEv.getHost sid (c.hostAt kh), CloudEv.migrate sid none,
         CloudEv.wait sid state, CloudEv.listMigrations,
         CloudEv.getHost sid (c.hostAt (kh + 1))] ∧
      c.hostAt (kh + 1) ≠ c.hostAt kh) := by
  constructor
  · intro t hp
    by_cases hw : c.waitOkAt kw
    · by_cases ht : t = c.hostAt kh
      · exact ht.symm
      · simp [liveMigrate, hw, ht] at hp
    · simp [liveMigrate, hw] at hp
  · intro hp
    by_cases hw : c.waitOkAt kw
    · by_cases hs : c.hostAt kh ≠ c.hostAt (kh + 1)
      · refine ⟨?_, fun e => hs e.symm⟩
        simp [liveMigrate, hw, hs]
      · simp [liveMigrate, hw, hs] at hp
    · simp [liveMigrate, hw] at hp

/-- Witness for C1 at a concrete input: a cloud whose host moves from
h1 to h2 and whose waits succeed. -/
theorem live_migrate_host_postcondition_witness :
    ((liveMigrate
        { hostAt := fun k => if k = 0 then "h1" else "h2",
          waitOkAt := fun _ => true, migrationsAt := fun _ => [] }
        "srv" (some "h1") "ACTIVE" 0 0 0).1 = .passed →
      (fun k => if k = 0 then "h1" else "h2") 0 = "h1") ∧
    ((liveMigrate
        { hostAt := fun k => if k = 0 then "h1" else "h2",
          waitOkAt := fun _ => true, migrationsAt := fun _ => [] }
        "srv" none "ACTIVE" 0 0 0).1 = .passed →
      "h2" ≠ "h1") := by
  have h := live_migrate_host_postcondition
    { hostAt := fun k => if k = 0 then "h1" else "h2",
      waitOkAt := fun _ => true, migrationsAt := fun _ => [] }
    "srv" "ACTIVE" 0 0 0
  exact ⟨fun hp => h.1 "h1" hp, fun hp => (h.2 hp).2⟩

/-- Every matching migration record's rendering is contained in the
entry block of the failure message. -/
theorem infix_migrationEntries (sid : String) :
    ∀ (ms : List Migration) (m : Migration), m ∈ ms →
      m.instance_uuid = sid →
      ("\n" ++ m.text).data <:+: (migrationEntries sid ms).data := by
  intro ms
  induction ms with
  | nil => intro m hm; exact absurd hm (List.not_mem_nil m)
  | cons m0 rest ih =>
      intro m hm hsid
      rcases List.mem_cons.mp hm with rfl | hm'
      · refine ⟨[], (migrationEntries sid rest).data, ?_⟩
        simp [migrationEntries, hsid]
      · rcases ih m hm' hsid with ⟨s, t, hst⟩
        refine ⟨((if m0.instance_uuid = sid then "\n" ++ m0.text
          else "")).data ++ s, t, ?_⟩
        simp only [migrationEntries, String.data_append]
        rw [← hst]
        simp [List.append_assoc]

/-- Containment extends to the whole assertion message. -/
theorem infix_migrationsMsg (sid : String) (ms : List Migration)
    (m : Migration) (hm : m ∈ ms) (hsid : m.instance_uuid = sid) :
    ("\n" ++ m.text).data <:+: (migrationsMsg sid ms).data := by
  rcases infix_migrationEntries sid ms m hm hsid with ⟨s, t, hst⟩
  refine ⟨("Live Migration failed. Migrations list for Instance " ++ sid ++
    ": [").data ++ s, t ++ ("]" : String).data, ?_⟩
  simp only [migrationsMsg, String.data_append]
  rw [← hst]
  simp [List.append_assoc]

/-- Claim C4 (amended): when the flow fails on the host-placement
assertion, the failure message contains every migration record whose
instance_uuid equals the migrated server's id; when the status wait
times out, the flow propagates the waiter's timeout error, which is
built without the migration list. -/
theorem live_migrate_failure_message_content (c : Cloud)
    (sid state : String) (target : Option String) (kh kw kl : Nat) :
    (∀ msg k' evs,
      liveMigrate c sid target state kh kw kl = (.assertError msg, k', evs) →
        msg = migrationsMsg sid (c.migrationsAt kl) ∧
        ∀ m ∈ c.migrationsAt kl, m.instance_uuid = sid →
          ("\n" ++ m.text).data <:+: msg.data) ∧
    (c.waitOkAt kw = false →
      (liveMigrate c sid target state kh kw kl).1 =
        .timeoutError (waitTimeoutMsg sid state)) := by
  constructor
  · intro msg k' evs heq
    have hmsg : msg = migrationsMsg sid (c.migrationsAt kl) := by
      match target with
      | none =>
          by_cases hw : c.waitOkAt kw
          · by_cases hs : c.hostAt kh ≠ c.hostAt (kh + 1)
            · simp [liveMigrate, hw, hs] at heq
            · simp only [liveMigrate, hw, if_true, if_neg hs,
                Prod.mk.injEq] at heq
              exact (RunResult.assertError.injEq _ _ ▸ heq.1).symm
          · simp [liveMigrate, hw] at heq
      | some t =>
          by_cases hw : c.waitOkAt kw
          · by_cases hs : t = c.hostAt kh
            · simp [liveMigrate, hw, hs] at heq
            · simp only [liveMigrate, hw, if_true, if_neg hs,
                Prod.mk.injEq] at heq
              exact (RunResult.assertError.injEq _ _ ▸ heq.1).symm
          · simp [liveMigrate, hw] at heq
    subst hmsg
    exact ⟨rfl, fun m hm hsid => infix_migrationsMsg sid _ m hm hsid⟩
  · intro hw
    match target with
    | none => simp [liveMigrate, hw]
    | some t => simp [liveMigrate, hw]

/-- Witness for the amended C4 at a concrete input: a run whose host
assertion fails and whose message contains the matching record. -/
theorem live_migrate_failure_message_content_witness :
    (liveMigrate
      { hostAt := fun _ => "h1", waitOkAt := fun _ => true,
        migrationsAt := fun _ => [⟨"srv", "rec-srv"⟩] }
      "srv" none "ACTIVE" 0 0 0).1 =
      .assertError (migrationsMsg "srv" [⟨"srv", "rec-srv"⟩]) ∧
    ("\n" ++ "rec-srv").data <:+:
      (migrationsMsg "srv" [⟨"srv", "rec-srv"⟩]).data := by
  have h := (live_migrate_failure_message_content
    { hostAt := fun _ => "h1", waitOkAt := fun _ => true,
      migrationsAt := fun _ => [⟨"srv", "rec-srv"⟩] }
    "srv" "ACTIVE" none 0 0 0).1
    (migrationsMsg "srv" [⟨"srv", "rec-srv"⟩]) (2, 1, 1)
    [CloudEv.getHost "srv" "h1", CloudEv.migrate "srv" none,
     CloudEv.wait "srv" "ACTIVE", CloudEv.listMigrations,
     CloudEv.getHost "srv" "h1"] (by decide)
  exact ⟨by decide, (h.2 ⟨"srv", "rec-srv"⟩ (by decide) (by decide))⟩

/-- Counterexample to C4 as stated: a run whose status wait times out
fails with the waiter's timeout error, and a migration record matching
the server is not contained in that failure message (the migration list
is only fetched after a successful wait). -/
theorem live_migrate_timeout_lacks_migration_records :
    (liveMigrate
      { hostAt := fun _ => "h1", waitOkAt := fun _ => false,
        migrationsAt := fun _ => [⟨"srv", "rec-srv"⟩] }
      "srv" none "ACTIVE" 0 0 0).1 =
      .timeoutError (waitTimeoutMsg "srv" "ACTIVE") ∧
    (⟨"srv", "rec-srv"⟩ : Migration) ∈
      ({ hostAt := fun _ => "h1", waitOkAt := fun _ => false,
         migrationsAt := fun _ => [⟨"srv", "rec-srv"⟩] } : Cloud).migrationsAt
        0 ∧
    (⟨"srv", "rec-srv"⟩ : Migration).instance_uuid = "srv" ∧
    ¬ ("\n" ++ (⟨"srv", "rec-srv"⟩ : Migration).text).data <:+:
      (waitTimeoutMsg "srv" "ACTIVE").data := by
  refine ⟨by decide, by decide, by decide, by decide⟩

/-- The last element of a nonempty trace suffix is the last element of
the combined trace. -/
theorem getLast?_cons_append3 {α : Type} (x y : α) (A B L : List α)
    (hL : L.getLast? = some y) :
    (x :: (A ++ (B ++ L))).getLast? = some y := by
  have hx : x :: (A ++ (B ++ L)) = [x] ++ (A ++ (B ++ L)) := rfl
  rw [hx, List.getLast?_append, List.getLast?_append, List.getLast?_append,
    hL]
  simp only [Option.or_some]

/-- On success with an explicit target, the flow's trace is the migrate
request, the status wait, the migration listing and a final host read
returning the target itself. -/
theorem liveMigrate_some_passed_trace (c : Cloud) (sid t state : String)
    (kh kw kl : Nat)
    (hp : (liveMigrate c sid (some t) state kh kw kl).1 = .passed) :
    (liveMigrate c sid (some t) state kh kw kl).2.2 =
      [CloudEv.migrate sid (some t), CloudEv.wait sid state,
       CloudEv.listMigrations, CloudEv.getHost sid t] := by
  by_cases hw : c.waitOkAt kw
  · by_cases ht : t = c.hostAt kh
    · simp [liveMigrate, hw, ← ht]
    · simp [liveMigrate, hw, ht] at hp
  · simp [liveMigrate, hw] at hp

/-- `_test_live_migration(state, volume_backed)`
(test_live_migration.py lines 107-141): create a server, read its
source host, pick the destination (none unless migration between any
hosts is possible), pause when requested, run `_live_migrate`, and when
live_migrate_back_and_forth is enabled run it again with the recorded
source host as explicit target. An assertion or timeout raised by any
step propagates and ends the run. -/
def testLiveMigration (c : Cloud) (canAny backAndForth : Bool)
    (sid state : String) (volumeBacked : Bool) (other : String) :
    RunResult × (Nat × Nat × Nat) × List CloudEv :=
  let source_host := c.hostAt 0
  let destination_host : Option String :=
    if canAny = false then none else some other
  let pauseEvs : List CloudEv :=
    if state = "PAUSED" then [.pause sid, .wait sid state] else []
  let evs0 := CloudEv.getHost sid source_host :: pauseEvs
  if state = "PAUSED" ∧ c.waitOkAt 0 = false then
    (.timeoutError (waitTimeoutMsg sid state), (1, 1, 0), evs0)
  else
    let kw0 := if state = "PAUSED" then 1 else 0
    match liveMigrate c sid destination_host state 1 kw0 0 with
    | (.passed, (kh, kw, kl), evs1) =>
        if backAndForth then
          let r2 := liveMigrate c sid (some source_host) state kh kw kl
          (r2.1, r2.2.1, evs0 ++ evs1 ++ r2.2.2)
        else (.passed, (kh, kw, kl), evs0 ++ evs1)
    | (r, k, evs1) => (r, k, evs0 ++ evs1)

/-- Claim C7: with live_migrate_back_and_forth enabled, a successful
run re-issues the migrate request with the recorded pre-migration
source host as explicit target, and its final host read — the last
remote call of the trace — reports that source host. -/
theorem back_and_forth_returns_to_source (c : Cloud) (canAny : Bool)
    (sid state : String) (vb : Bool) (other : String)
    (hp : (testLiveMigration c canAny true sid state vb other).1 =
      .passed) :
    CloudEv.migrate sid (some (c.hostAt 0)) ∈
      (testLiveMigration c canAny true sid state vb other).2.2 ∧
    (testLiveMigration c canAny true sid state vb other).2.2.getLast? =
      some (CloudEv.getHost sid (c.hostAt 0)) := by
  unfold testLiveMigration at hp ⊢
  by_cases hps : state = "PAUSED" ∧ c.waitOkAt 0 = false
  · simp [hps] at hp
  · simp only [if_neg hps] at hp ⊢
    revert hp
    rcases hr1 : liveMigrate c sid
        (if canAny = false then none else some other) state 1
        (if state = "PAUSED" then 1 else 0) 0 with ⟨r1, ⟨kh, kw, kl⟩, evs1⟩
    intro hp
    rcases r1 with _ | m | m
    · have hp2 : (liveMigrate c sid (some (c.hostAt 0)) state
          kh kw kl).1 = .passed := by simpa using hp
      have htr := liveMigrate_some_passed_trace c sid (c.hostAt 0) state
        kh kw kl hp2
      constructor
      · simp [htr]
      · simp only [if_true, htr, List.cons_append, List.append_assoc]
        apply getLast?_cons_append3
        rfl
    · simp at hp
    · simp at hp

/-- Witness for C7 at a concrete input: hosts move h1 → h2 → h1 across
the two migrations and both waits succeed. -/
theorem back_and_forth_returns_to_source_witness :
    ((testLiveMigration
        { hostAt := fun k => if k = 1 then "h2" else "h1",
          waitOkAt := fun _ => true, migrationsAt := fun _ => [] }
        false true "srv" "ACTIVE" false "h2").1 = .passed) ∧
    ((testLiveMigration
        { hostAt := fun k => if k = 1 then "h2" else "h1",
          waitOkAt := fun _ => true, migrationsAt := fun _ => [] }
        false true "srv" "ACTIVE" false "h2").2.2.getLast? =
      some (CloudEv.getHost "srv" "h1")) := by
  refine ⟨by decide, ?_⟩
  exact (back_and_forth_returns_to_source
    { hostAt := fun k => if k = 1 then "h2" else "h1",
      waitOkAt := fun _ => true, migrationsAt := fun _ => [] }
    false "srv" "ACTIVE" false "h2" (by decide)).2

/-
Console-verification helper `_verify_console_interaction`
(test_live_migration.py lines 343-371). The websocket oracle:
`interact t` is the outcome of the send/receive pair attempted at loop
iteration t (none means it raised), and `reconnectOk t` whether the
reconnection attempted inside iteration t's handler succeeds.
Websockets are numbered in creation order; time is counted in tenths of
a second, matching the 0.1-second sleep of the loop.
-/

structure ConsoleEnv where
  initialConnectOk : Bool
  interact : Nat → Option String
  reconnectOk : Nat → Bool

/-- Websocket-related events of one helper run. -/
inductive WsEv where
  | created (id : Nat)
  | sendRecvOk (id : Nat)
  | sendRecvFailed (id : Nat)
  | closed (id : Nat)
  | assertedIn (ok : Bool)
deriving DecidableEq

/-- Outcome of the helper: the final assertion passed or failed, or an
exception escaped (a websocket creation failure). -/
inductive ConsoleResult where
  | passed
  | assertFailed
  | wsError
deriving DecidableEq

/-- Boolean prefix test on character lists. -/
def charsPrefixB : List Char → List Char → Bool
  | [], _ => true
  | _ :: _, [] => false
  | a :: as, b :: bs => a == b && charsPrefixB as bs

/-- Boolean substring test on character lists, the semantics of
Python's `in` on strings. -/
def charsInfixB (needle : List Char) : List Char → Bool
  | [] => needle.isEmpty
  | b :: rest => charsPrefixB needle (b :: rest) || charsInfixB needle rest

/-- The data the helper sends and then expects in the console output. -/
def dataString : String := "test_live_migration_serial_console"

/-- The helper's polling loop (lines 358-368): while the data has not
appeared in the accumulated output and at most 120.0 seconds (1200
tenths) have elapsed, try a send/receive pair; on success append the
received text, on failure create a new websocket — if that creation
raises, the exception escapes the loop (flag `false`). The state is
(current websocket, next fresh id, accumulated output, events). -/
def consoleLoop (env : ConsoleEnv) (dataS : String) :
    Nat → Nat → Nat → Nat → String → List WsEv →
    Bool × Nat × String × List WsEv
  | 0, _, ws, _, out, evs => (true, ws, out, evs)
  | fuel + 1, t, ws, nid, out, evs =>
      match charsInfixB dataS.data out.data || decide (1200 < t) with
      | true => (true, ws, out, evs)
      | false =>
          match env.interact t with
          | some received =>
              consoleLoop env dataS fuel (t + 1) ws nid (out ++ received)
                (evs ++ [WsEv.sendRecvOk ws])
          | none =>
              match env.reconnectOk t with
              | true =>
                  consoleLoop env dataS fuel (t + 1) nid (nid + 1) out
                    (evs ++ [WsEv.sendRecvFailed ws, WsEv.created nid])
              | false =>
                  (false, ws, out, evs ++ [WsEv.sendRecvFailed ws])

/-- `_verify_console_interaction(server_id)`: connect, run the loop
under try/finally — the finally clause closes whichever websocket is
current when the loop exits, on every exit path — then assert that the
data appeared in the output. A failure of the initial connection
happens before the try block, so nothing is closed there. -/
def verifyConsoleInteraction (env : ConsoleEnv) :
    ConsoleResult × List WsEv :=
  if env.initialConnectOk = false then (.wsError, [])
  else
    match consoleLoop env dataString 1202 0 0 1 "" [WsEv.created 0] with
    | (false, ws, _, evs) => (.wsError, evs ++ [WsEv.closed ws])
    | (true, ws, out, evs) =>
        if charsInfixB dataString.data out.data then
          (.passed, evs ++ [WsEv.closed ws, WsEv.assertedIn true])
        else
          (.assertFailed, evs ++ [WsEv.closed ws, WsEv.assertedIn false])

/-- Claim C5: inside the loop, a send/receive failure is recovered
locally — the handler creates one new websocket and the loop retries
the interaction with it on the next iteration; if instead that
reconnection itself raises, or the loop ends with the exception flag
set, the failure propagates to the caller as an error (and an
assertion mismatch is likewise not swallowed). -/
theorem console_send_recv_failure_recovery :
    (∀ (env : ConsoleEnv) (dataS : String) (fuel t ws nid : Nat)
      (out : String) (evs : List WsEv),
      charsInfixB dataS.data out.data = false → t ≤ 1200 →
      env.interact t = none → env.reconnectOk t = true →
      consoleLoop env dataS (fuel + 1) t ws nid out evs =
        consoleLoop env dataS fuel (t + 1) nid (nid + 1) out
          (evs ++ [WsEv.sendRecvFailed ws, WsEv.created nid])) ∧
    (∀ (env : ConsoleEnv) (dataS : String) (fuel t ws nid : Nat)
      (out : String) (evs : List WsEv),
      charsInfixB dataS.data out.data = false → t ≤ 1200 →
      env.interact t = none → env.reconnectOk t = false →
      consoleLoop env dataS (fuel + 1) t ws nid out evs =
        (false, ws, out, evs ++ [WsEv.sendRecvFailed ws])) ∧
    (∀ env : ConsoleEnv, env.initialConnectOk = true →
      ∀ (ws : Nat) (out : String) (evs : List WsEv),
        consoleLoop env dataString 1202 0 0 1 "" [WsEv.created 0] =
          (false, ws, out, evs) →
        (verifyConsoleInteraction env).1 = .wsError) := by
  refine ⟨?_, ?_, ?_⟩
  · intro env dataS fuel t ws nid out evs hout ht hint hrec
    have hcond : (charsInfixB dataS.data out.data ||
        decide (1200 < t)) = false := by
      rw [hout]
      simpa using ht
    simp [consoleLoop, hcond, hint, hrec]
  · intro env dataS fuel t ws nid out evs hout ht hint hrec
    have hcond : (charsInfixB dataS.data out.data ||
        decide (1200 < t)) = false := by
      rw [hout]
      simpa using ht
    simp [consoleLoop, hcond, hint, hrec]
  · intro env hinit ws out evs heq
    simp [verifyConsoleInteraction, hinit, heq]

/-- Witness for C5 at a concrete input: an environment whose first
interaction fails and whose reconnection succeeds takes the
reconnect-and-retry step. -/
theorem console_send_recv_failure_recovery_witness :
    consoleLoop
      { initialConnectOk := true, interact := fun _ => none,
        reconnectOk := fun _ => true }
      dataString 6 0 0 1 "" [] =
    consoleLoop
      { initialConnectOk := true, interact := fun _ => none,
        reconnectOk := fun _ => true }
      dataString 5 1 1 2 ""
      ([] ++ [WsEv.sendRecvFailed 0, WsEv.created 1]) :=
  console_send_recv_failure_recovery.1
    { initialConnectOk := true, interact := fun _ => none,
      reconnectOk := fun _ => true }
    dataString 5 0 0 1 "" [] (by decide) (by decide) rfl rfl

/-- Ids of websockets closed in a trace. -/
def wsClosedIds (evs : List WsEv) : List Nat :=
  evs.filterMap fun e => match e with | .closed i => some i | _ => none

/-- Ids of websockets created in a trace, in creation order. -/
def wsCreatedIds (evs : List WsEv) : List Nat :=
  evs.filterMap fun e => match e with | .created i => some i | _ => none

/-- Closed ids split over trace concatenation. -/
theorem wsClosedIds_append (l1 l2 : List WsEv) :
    wsClosedIds (l1 ++ l2) = wsClosedIds l1 ++ wsClosedIds l2 := by
  simp [wsClosedIds, List.filterMap_append]

/-- Created ids split over trace concatenation. -/
theorem wsCreatedIds_append (l1 l2 : List WsEv) :
    wsCreatedIds (l1 ++ l2) = wsCreatedIds l1 ++ wsCreatedIds l2 := by
  simp [wsCreatedIds, List.filterMap_append]

/-- Loop invariant: the loop closes nothing, asserts nothing, and its
current websocket is always the most recently created one. -/
theorem consoleLoop_inv (env : ConsoleEnv) (dataS : String) :
    ∀ (fuel t ws nid : Nat) (out : String) (evs : List WsEv),
      wsClosedIds evs = [] →
      (∀ b, WsEv.assertedIn b ∉ evs) →
      (wsCreatedIds evs).getLast? = some ws →
      wsClosedIds (consoleLoop env dataS fuel t ws nid out evs).2.2.2 =
        [] ∧
      (∀ b, WsEv.assertedIn b ∉
        (consoleLoop env dataS fuel t ws nid out evs).2.2.2) ∧
      (wsCreatedIds
          (consoleLoop env dataS fuel t ws nid out evs).2.2.2).getLast? =
        some (consoleLoop env dataS fuel t ws nid out evs).2.1 := by
  intro fuel
  induction fuel with
  | zero =>
      intro t ws nid out evs h1 h2 h3
      exact ⟨h1, h2, h3⟩
  | succ n ih =>
      intro t ws nid out evs h1 h2 h3
      cases hg : charsInfixB dataS.data out.data || decide (1200 < t) with
      | true =>
          simp only [consoleLoop, hg]
          exact ⟨h1, h2, h3⟩
      | false =>
          simp only [consoleLoop, hg]
          cases hint : env.interact t with
          | some received =>
              apply ih
              · rw [wsClosedIds_append, h1]
                rfl
              · intro b
                simp [List.mem_append, h2 b]
              · rw [wsCreatedIds_append]
                simpa [wsCreatedIds] using h3
          | none =>
              cases hrec : env.reconnectOk t with
              | true =>
                  apply ih
                  · rw [wsClosedIds_append, h1]
                    rfl
                  · intro b
                    simp [List.mem_append, h2 b]
                  · rw [wsCreatedIds_append]
                    simp [wsCreatedIds, List.getLast?_append]
              | false =>
                  refine ⟨?_, ?_, ?_⟩
                  · rw [wsClosedIds_append, h1]
                    rfl
                  · intro b
                    simp [List.mem_append, h2 b]
                  · rw [wsCreatedIds_append]
                    simpa [wsCreatedIds] using h3

/-- Claim C10: whenever the helper's try block is entered, the run
closes exactly one websocket — the most recently created one — via the
finally clause, on every exit path (success, budget exhaustion, or an
exception escaping the loop), and any final-assertion event comes only
after the close. -/
theorem console_close_on_every_exit (env : ConsoleEnv)
    (hinit : env.initialConnectOk = true) :
    ∃ (pre : List WsEv) (c : Nat) (post : List WsEv),
      (verifyConsoleInteraction env).2 = pre ++ WsEv.closed c :: post ∧
      wsClosedIds pre = [] ∧
      wsClosedIds post = [] ∧
      (∀ e ∈ post, ∃ b, e = WsEv.assertedIn b) ∧
      (wsCreatedIds pre).getLast? = some c := by
  have hinv := consoleLoop_inv env dataString 1202 0 0 1 ""
    [WsEv.created 0] rfl (by intro b; simp [List.mem_singleton]) rfl
  unfold verifyConsoleInteraction
  rw [hinit]
  rcases hres : consoleLoop env dataString 1202 0 0 1 ""
    [WsEv.created 0] with ⟨flag, ws, out, evs⟩
  rw [hres] at hinv
  rcases flag
  · refine ⟨evs, ws, [], by simp, hinv.1, rfl, by simp, hinv.2.2⟩
  · by_cases hsub : charsInfixB dataString.data out.data = true
    · refine ⟨evs, ws, [WsEv.assertedIn true], by simp [hsub], hinv.1,
        rfl, by simp, hinv.2.2⟩
    · refine ⟨evs, ws, [WsEv.assertedIn false], by simp [hsub], hinv.1,
        rfl, by simp, hinv.2.2⟩

/-- Witness for C10 at a concrete input: an environment whose first
interaction returns the expected data. -/
theorem console_close_on_every_exit_witness :
    ∃ (pre : List WsEv) (c : Nat) (post : List WsEv),
      (verifyConsoleInteraction
        { initialConnectOk := true,
          interact := fun _ => some dataString,
          reconnectOk := fun _ => true }).2 =
        pre ++ WsEv.closed c :: post ∧
      wsClosedIds pre = [] ∧
      wsClosedIds post = [] ∧
      (∀ e ∈ post, ∃ b, e = WsEv.assertedIn b) ∧
      (wsCreatedIds pre).getLast? = some c :=
  console_close_on_every_exit
    { initialConnectOk := true, interact := fun _ => some dataString,
      reconnectOk := fun _ => true } rfl

/-
Cleanup registry and class teardown
(test_live_migration.py lines 216-237,
test_endpoints.py lines 54-60).
-/

/-- Modelled from the spec: the per-test-class resource-cleanup
registry of the base test classes (addClassResourceCleanup and its
executor are not among the sources); per the spec it is a stack of
teardown actions executed in reverse order of registration —
last-registered, first-executed — exactly once each, regardless of test
success or failure. The returned list is the execution order. -/
def runCleanups {α : Type} (registered : List α) (bodyRaised : Bool) :
    List α :=
  registered.reverse

/-- The two cleanup actions of `_create_net_subnet`. -/
inductive CleanupAct where
  | deleteNetwork (id : String)
  | deleteSubnet (id : String)
deriving DecidableEq

/-- Registration order of `_create_net_subnet`
(test_live_migration.py lines 216-228): network deletion is registered
first, subnet deletion second. -/
def createNetSubnetCleanups (netId subnetId : String) : List CleanupAct :=
  [.deleteNetwork netId, .deleteSubnet subnetId]

/-- Remote deletion calls of the identity test class teardown. -/
inductive IdCall where
  | deleteEndpoint (id : String)
  | deleteService (id : String)
deriving DecidableEq

/-- `EndPointsTestJSON.resource_cleanup`
(test_endpoints.py lines 54-60): delete every endpoint remaining in
setup_endpoints, then every service in service_ids, in list order. -/
def endpointsResourceCleanup (setup_endpoints service_ids : List String) :
    List IdCall :=
  setup_endpoints.map IdCall.deleteEndpoint ++
    service_ids.map IdCall.deleteService

/-- Claim C6: cleanups registered c1, c2, c3 execute c3, c2, c1 exactly
once each, whether or not the body raised; in particular the subnet
deletion registered by `_create_net_subnet` runs before the network
deletion; and the endpoints teardown deletes each endpoint of
setup_endpoints and each service of service_ids exactly once. -/
theorem cleanup_stack_reverse_order_once :
    (∀ (α : Type) (c1 c2 c3 : α) (raised : Bool),
      runCleanups [c1, c2, c3] raised = [c3, c2, c1]) ∧
    (∀ (netId subnetId : String) (raised : Bool),
      runCleanups (createNetSubnetCleanups netId subnetId) raised =
        [.deleteSubnet subnetId, .deleteNetwork netId]) ∧
    (∀ eps sids : List String, eps.Nodup → sids.Nodup →
      (∀ e ∈ eps,
        (endpointsResourceCleanup eps sids).count
          (IdCall.deleteEndpoint e) = 1) ∧
      (∀ s ∈ sids,
        (endpointsResourceCleanup eps sids).count
          (IdCall.deleteService s) = 1)) := by
  refine ⟨?_, ?_, ?_⟩
  · intro α c1 c2 c3 raised
    rfl
  · intro netId subnetId raised
    rfl
  · intro eps sids heps hsids
    have hinjE : Function.Injective IdCall.deleteEndpoint := by
      intro a b hab
      injection hab
    have hinjS : Function.Injective IdCall.deleteService := by
      intro a b hab
      injection hab
    constructor
    · intro e he
      rw [endpointsResourceCleanup, List.count_append,
        List.count_map_of_injective _ _ hinjE,
        List.count_eq_one_of_mem heps he,
        List.count_eq_zero_of_not_mem (by simp)]
    · intro s hs
      rw [endpointsResourceCleanup, List.count_append,
        List.count_map_of_injective _ _ hinjS,
        List.count_eq_one_of_mem hsids hs,
        List.count_eq_zero_of_not_mem (by simp)]

/-- Witness for C6 at a concrete input: two endpoints and one service,
each deleted exactly once. -/
theorem cleanup_stack_reverse_order_once_witness :
    (["e1", "e2"] : List String).Nodup ∧
    (["s1"] : List String).Nodup ∧
    (endpointsResourceCleanup ["e1", "e2"] ["s1"]).count
      (IdCall.deleteEndpoint "e1") = 1 ∧
    (endpointsResourceCleanup ["e1", "e2"] ["s1"]).count
      (IdCall.deleteService "s1") = 1 := by
  have h := cleanup_stack_reverse_order_once.2.2 ["e1", "e2"] ["s1"]
    (by decide) (by decide)
  exact ⟨by decide, by decide, h.1 "e1" (by decide), h.2 "s1" (by decide)⟩

/-
Skip checks (test_live_migration.py lines 39-49,
test_volumes_backup.py lines 34-38).
-/

/-- `LiveMigrationTestBase.skip_checks`: after the base class's checks,
raise skipException when live migration is unavailable, then when fewer
than two compute nodes exist; `superSkip` is the message of a
skipException raised by the base class's checks, if any. Returns the
skip message raised, if any. -/
def liveMigrationSkipChecks (superSkip : Option String) (lm : Bool)
    (minNodes : Nat) (clsName : String) : Option String :=
  match superSkip with
  | some m => some m
  | none =>
      if lm = false then
        some (clsName ++ " skipped as live-migration is not available")
      else if minNodes < 2 then
        some "Less than 2 compute nodes, skipping migration test."
      else none

/-- `VolumesBackupsTest.skip_checks`: after the base class's checks,
raise skipException when the cinder backup feature is disabled. -/
def volumesBackupSkipChecks (superSkip : Option String) (backup : Bool) :
    Option String :=
  match superSkip with
  | some m => some m
  | none =>
      if backup = false then some "Cinder backup feature disabled"
      else none

/-- Outcome of running one scenario class. -/
inductive TestOutcome (β : Type) where
  | skipped (msg : String)
  | ran (result : β)
deriving DecidableEq

/-- Modelled from the spec: the test runner (the unittest machinery is
not among the sources); per the spec a scenario whose skip_checks
raises is reported as skipped, not failed, and its body is not run,
while otherwise the body runs. -/
def runScenario {β : Type} (skipCheck : Option String) (body : β) :
    TestOutcome β :=
  match skipCheck with
  | some m => .skipped m
  | none => .ran body

/-- Claim C8: with the base class's own checks passing, a
live-migration scenario is skipped if and only if live migration is
disabled or fewer than two compute nodes exist; a volume-backup
scenario is skipped if and only if the backup feature is disabled; and
a scenario's body runs exactly when no skip was raised. -/
theorem skip_checks_preconditions :
    (∀ (lm : Bool) (minNodes : Nat) (cls : String) (body : Bool),
      (∃ m, runScenario (liveMigrationSkipChecks none lm minNodes cls)
          body = .skipped m) ↔
        (lm = false ∨ minNodes < 2)) ∧
    (∀ (backup : Bool) (body : Bool),
      (∃ m, runScenario (volumesBackupSkipChecks none backup) body =
          .skipped m) ↔
        backup = false) ∧
    (∀ (β : Type) (chk : Option String) (body : β),
      runScenario chk body = .ran body ↔ chk = none) := by
  refine ⟨?_, ?_, ?_⟩
  · intro lm minNodes cls body
    rcases lm
    · simp [liveMigrationSkipChecks, runScenario]
    · by_cases hn : minNodes < 2
      · simp [liveMigrationSkipChecks, runScenario, hn]
      · simp [liveMigrationSkipChecks, runScenario, hn]
  · intro backup body
    rcases backup
    · simp [volumesBackupSkipChecks, runScenario]
    · simp [volumesBackupSkipChecks, runScenario]
  · intro β chk body
    rcases chk with _ | m
    · simp [runScenario]
    · simp [runScenario]

/-- Witness for C8 at a concrete input: live migration disabled yields
a skip, and a passing check runs the body. -/
theorem skip_checks_preconditions_witness :
    (∃ m, runScenario (liveMigrationSkipChecks none false 3
        "LiveMigrationTest") true = .skipped m) ∧
    runScenario (volumesBackupSkipChecks none true) true = .ran true :=
  ⟨(skip_checks_preconditions.1 false 3 "LiveMigrationTest" true).mpr
      (Or.inl rfl),
    (skip_checks_preconditions.2.2 Bool
      (volumesBackupSkipChecks none true) true).mpr rfl⟩
